import Mathlib

/-
Shallow embedding of the media-processing orchestration core of the
MRContent repository (Go).  Sources embedded here:
  - models/mrcontent.go            (Media, MRContent)
  - controllers/callback_handler.go (processMediaResult, updateMediaField,
      TrackProcessingStart, TrackProcessingComplete, CountMediaTasks)
  - controllers/mrcontent_controller.go (mergeMediaByKey)
  - main.go                        (ProcessMediaForContent, processImage)
The Mongo collection is modelled as a map from the hex content id to the
record; the in-memory tracker map as a map from content id to an Int count.
Content ids are treated as opaque strings (hex parsing of ObjectIDs is not
modelled; it is orthogonal to the claims).  Timestamps (updated_at) are not
modelled.  The Go map used by mergeMediaByKey is modelled as an
insertion-ordered association list, which refines the unspecified Go map
iteration order.
-/

/-- Media represents an image or video with a key-value structure
(models/mrcontent.go). -/
structure Media where
  key : String
  value : String
deriving DecidableEq, Repr

/-- The fields of the MRContent document that the orchestration core reads or
writes (models/mrcontent.go).  Ownership and timestamp fields are omitted;
id and organizationId stand for the hex forms of the ObjectIDs. -/
structure MRContent where
  id : String
  organizationId : String
  images : List Media
  videos : List Media
  objects3D : List Media
  hasAlpha : Bool
  orientation : String
  status : String
deriving DecidableEq, Repr

/-- MediaProcessResult, the result shape received from the media processor
(controllers/callback_handler.go). -/
structure MediaProcessResult where
  contentID : String
  originalURL : String
  processedURL : String
  hlsURL : String
  dashURL : String
  mediaType : String
  processingType : String
  orientation : String
  hasAlpha : Bool
  success : Bool
  error : String
  timestamp : Int
deriving DecidableEq, Repr

/-- TranscodeRequest, the request shape published to the media processor
(main.go).  Absent fields default to the Go zero value. -/
structure TranscodeRequest where
  videoURL : String := ""
  imageURL : String := ""
  alphaVideoURL : String := ""
  contentID : String := ""
  callbackURL : String := ""
  callbackTopic : String := ""
  organizationID : String := ""
deriving DecidableEq, Repr

/-- The shared mutable state of the core: the in-memory tracker table
(processingTasks map in MediaProcessingTracker) and the oms_mrexperiences
collection keyed by content id. -/
structure SysState where
  tracker : String → Option Int
  db : String → Option MRContent

/-- Lookup of a key in a keyed media list: value of the first entry with that
key, if any. -/
def mediaLookup (l : List Media) (k : String) : Option String :=
  (l.find? (fun m => m.key = k)).map Media.value

/-- Keys of a keyed media list, in order. -/
def mediaKeys (l : List Media) : List String :=
  l.map Media.key

/-- strings.HasPrefix of the Go standard library, modelled as a prefix test
on the character list (equivalent to the Go byte test on valid UTF-8). -/
def strStartsWith (s p : String) : Bool := p.data.isPrefixOf s.data

/-- The conditional status update UpdateOne(filter by id and expected status,
set status) used by the tracker (controllers/callback_handler.go). -/
def setStatusIf (db : String → Option MRContent) (contentID target result : String) :
    String → Option MRContent :=
  fun k =>
    if k = contentID then
      match db contentID with
      | some c => if c.status = target then some { c with status := result } else some c
      | none => none
    else db k

/-- updateMediaField (controllers/callback_handler.go lines 268-283): update
the value of the first entry carrying the key, or append a new entry. -/
def updateMediaField : List Media → String → String → List Media
  | [], key, value => [{ key := key, value := value }]
  | m :: rest, key, value =>
    if m.key = key then { m with value := value } :: rest
    else m :: updateMediaField rest key value

/-- mergeMediaByKey (controllers/mrcontent_controller.go lines 397-429).  The
Go map is modelled as an insertion-ordered association list built with
updateMediaField, which has exactly the add-or-overwrite semantics of a map
store. -/
def mergeMediaByKey (existingMedia newMedia : List Media) : List Media :=
  if newMedia.isEmpty then existingMedia
  else if existingMedia.isEmpty then newMedia
  else
    let mediaMap := existingMedia.foldl
      (fun acc item => updateMediaField acc item.key item.value) []
    let mediaMap := newMedia.foldl
      (fun acc item => updateMediaField acc item.key item.value) mediaMap
    mediaMap

/-- CountMediaTasks (controllers/callback_handler.go lines 528-578). -/
def CountMediaTasks (content : MRContent) : Int :=
  let imgCount : Int :=
    (content.images.countP
      (fun img => strStartsWith img.key "original" && img.value != "") : Nat)
  let taskCount : Int := if imgCount > 0 then 0 + imgCount else 0
  let videoCount : Int :=
    (content.videos.countP
      (fun video => strStartsWith video.key "original" && video.value != "") : Nat)
  let alphaVideoCount : Int :=
    (content.videos.countP
      (fun video => video.key == "mask" || video.key == "original_alpha") : Nat)
  let taskCount :=
    if videoCount > 0 then
      taskCount + (if alphaVideoCount > 0 then 1 else 0) + videoCount * 2
    else taskCount
  taskCount

/-- TrackProcessingStart (controllers/callback_handler.go lines 358-416).
Stores the task count in the tracker, then transitions the persisted status
draft to processing through a conditional update.  A missing record makes the
database read fail; the tracker entry is already written at that point, as in
the source. -/
def TrackProcessingStart (s : SysState) (contentID : String) (taskCount : Int) : SysState :=
  if taskCount ≤ 0 then s
  else
    let s1 : SysState :=
      { s with tracker := fun k => if k = contentID then some taskCount else s.tracker k }
    match s1.db contentID with
    | none => s1
    | some content =>
      if content.status = "draft" then
        { s1 with db := setStatusIf s1.db contentID "draft" "processing" }
      else s1

/-- TrackProcessingComplete (controllers/callback_handler.go lines 420-495).
Decrements the tracker entry; at zero removes it and transitions the
persisted status processing to processed through a conditional update. -/
def TrackProcessingComplete (s : SysState) (contentID : String) : SysState :=
  match s.tracker contentID with
  | none => s
  | some c =>
    let remainingTasks := c - 1
    if remainingTasks ≤ 0 then
      let s1 : SysState :=
        { s with tracker := fun k => if k = contentID then none else s.tracker k }
      match s1.db contentID with
      | none => s1
      | some content =>
        if content.status = "processing" then
          { s1 with db := setStatusIf s1.db contentID "processing" "processed" }
        else s1
    else
      { s with tracker := fun k => if k = contentID then some remainingTasks else s.tracker k }

/-- Iterated TrackProcessingComplete for the same content id. -/
def iterateComplete (contentID : String) : Nat → SysState → SysState
  | 0, s => s
  | Nat.succ j, s => iterateComplete contentID j (TrackProcessingComplete s contentID)

/-- The update set that processMediaResult computes for a successful result
(controllers/callback_handler.go lines 150-231), applied to the record read
from the database: orientation and has_alpha feedback, then the media list
update selected by media type and processing type. -/
def applyMediaResult (content : MRContent) (result : MediaProcessResult) : MRContent :=
  let content :=
    if result.orientation != "" then { content with orientation := result.orientation }
    else content
  let content :=
    if result.hasAlpha then { content with hasAlpha := true } else content
  match result.mediaType with
  | "image" =>
    if result.processedURL != "" then
      { content with images := updateMediaField content.images "compressed" result.processedURL }
    else content
  | "video" =>
    match result.processingType with
    | "compressed" =>
      if result.processedURL != "" then
        { content with videos := updateMediaField content.videos "compressed" result.processedURL }
      else content
    | "hls" =>
      let updatedVideos := content.videos
      let updatedVideos :=
        if result.hlsURL != "" then updateMediaField updatedVideos "hls" result.hlsURL
        else updatedVideos
      let updatedVideos :=
        if result.dashURL != "" then updateMediaField updatedVideos "dash" result.dashURL
        else updatedVideos
      { content with videos := updatedVideos }
    | "alpha" =>
      if result.processedURL != "" then
        { content with videos := updateMediaField content.videos "alpha" result.processedURL }
      else content
    | "stitched" =>
      if result.processedURL != "" then
        { content with videos := updateMediaField content.videos "stitched" result.processedURL }
      else content
    | _ => content
  | "object_3d" =>
    if result.processedURL != "" then
      { content with objects3D := updateMediaField content.objects3D "processed" result.processedURL }
    else content
  | _ => content

/-- processMediaResult (controllers/callback_handler.go lines 114-265).
Returns the error outcome together with the new state.  The validation guard
precedes the success check, as in the source; a failed result therefore only
reaches TrackProcessingComplete when it passes validation. -/
def processMediaResult (s : SysState) (result : MediaProcessResult) :
    Except String Unit × SysState :=
  if result.contentID = "" ∨
      (result.processedURL = "" ∧ result.hlsURL = "" ∧ result.dashURL = "") then
    (Except.error "missing required fields: content_id or processed URL", s)
  else if !result.success then
    (Except.ok (), TrackProcessingComplete s result.contentID)
  else
    match s.db result.contentID with
    | none => (Except.error "error finding content", s)
    | some content =>
      let updated := applyMediaResult content result
      let s1 : SysState :=
        { s with db := fun k => if k = result.contentID then some updated else s.db k }
      (Except.ok (), TrackProcessingComplete s1 result.contentID)

/-- Folding a sequence of results through processMediaResult. -/
def ingestResults (s : SysState) (results : List MediaProcessResult) : SysState :=
  results.foldl (fun s r => (processMediaResult s r).2) s

/-- processImage (main.go lines 331-346): publish an image compression
request; a publish failure only logs.  The pub oracle decides whether a
publish succeeds; successful publishes are appended to the published list. -/
def processImage (pub : String → TranscodeRequest → Bool) (request : TranscodeRequest)
    (published : List (String × TranscodeRequest)) : List (String × TranscodeRequest) :=
  if request.imageURL = "" then published
  else if pub "compressimage" request then published ++ [("compressimage", request)]
  else published

/-- The first original video URL found by the dispatcher video scan
(main.go lines 218-223). -/
def dispatchOriginalVideoURL (content : MRContent) : String :=
  ((content.videos.find?
    (fun video => strStartsWith video.key "original" && video.value != "")).map Media.value).getD ""

/-- The first mask video URL found by the dispatcher mask scan
(main.go lines 226-231). -/
def dispatchMaskVideoURL (content : MRContent) : String :=
  ((content.videos.find?
    (fun video => strStartsWith video.key "mask" && video.value != "")).map Media.value).getD ""

/-- The combined createexperience request the dispatcher builds
(main.go lines 238-248). -/
def dispatchBaseRequest (content : MRContent) : TranscodeRequest :=
  let baseRequest : TranscodeRequest :=
    { videoURL := dispatchOriginalVideoURL content
      contentID := content.id
      organizationID := content.organizationId }
  if dispatchMaskVideoURL content != "" then
    { baseRequest with alphaVideoURL := dispatchMaskVideoURL content }
  else baseRequest

/-- ProcessMediaForContent (main.go lines 166-328).  natsOk models whether
GetNATS succeeded; pub models the outcome of each publish.  The detached
goroutine is run sequentially after TrackProcessingStart.  Returns the final
state and the list of successfully published messages.  The 3D object loop
only logs and is omitted. -/
def ProcessMediaForContent (natsOk : Bool) (pub : String → TranscodeRequest → Bool)
    (s : SysState) (content : MRContent) : SysState × List (String × TranscodeRequest) :=
  if !natsOk then (s, [])
  else
    let taskCount := CountMediaTasks content
    if taskCount ≤ 0 then (s, [])
    else
      let contentIDStr := content.id
      let orgIDStr := content.organizationId
      let s := TrackProcessingStart s contentIDStr taskCount
      let published := content.images.foldl
        (fun acc img =>
          if strStartsWith img.key "original" && img.value != "" then
            processImage pub
              { imageURL := img.value, contentID := contentIDStr, organizationID := orgIDStr }
              acc
          else acc) []
      if dispatchOriginalVideoURL content != "" then
        let baseRequest := dispatchBaseRequest content
        if pub "createexperience" baseRequest then
          (s, published ++ [("createexperience", baseRequest)])
        else
          (TrackProcessingComplete
            (TrackProcessingComplete
              (TrackProcessingComplete s contentIDStr) contentIDStr) contentIDStr,
           published)
      else (s, published)

/-! Association-list lemmas about updateMediaField and the folds inside
mergeMediaByKey. -/

/-- The fold that mergeMediaByKey uses to load a media list into the map. -/
def mediaFold (acc l : List Media) : List Media :=
  l.foldl (fun acc item => updateMediaField acc item.key item.value) acc

theorem mediaFold_nil (acc : List Media) : mediaFold acc [] = acc := rfl

theorem mediaFold_cons (acc : List Media) (x : Media) (l : List Media) :
    mediaFold acc (x :: l) = mediaFold (updateMediaField acc x.key x.value) l := rfl

theorem mergeMediaByKey_eq_fold (l u : List Media) (hl : l ≠ []) (hu : u ≠ []) :
    mergeMediaByKey l u = mediaFold (mediaFold [] l) u := by
  simp [mergeMediaByKey, mediaFold, List.isEmpty_iff, hl, hu]

theorem mediaLookup_nil (k : String) : mediaLookup [] k = none := rfl

theorem mediaLookup_cons (m : Media) (l : List Media) (k : String) :
    mediaLookup (m :: l) k = if m.key = k then some m.value else mediaLookup l k := by
  by_cases h : m.key = k <;> simp [mediaLookup, List.find?, h]

theorem mediaLookup_updateMediaField (l : List Media) (k v k' : String) :
    mediaLookup (updateMediaField l k v) k' =
      if k' = k then some v else mediaLookup l k' := by
  induction l with
  | nil =>
    by_cases h : k' = k
    · subst h
      simp [mediaLookup, updateMediaField, List.find?]
    · simp [mediaLookup, updateMediaField, List.find?, h, Ne.symm h]
  | cons m rest ih =>
    by_cases hm : m.key = k
    · by_cases h : k' = k
      · subst h
        simp [updateMediaField, hm, mediaLookup_cons]
      · have hk : ¬ k = k' := fun hh => h hh.symm
        simp [updateMediaField, hm, mediaLookup_cons, h, hk]
    · by_cases hk : m.key = k'
      · have h : ¬ k' = k := fun h => hm (hk.trans h)
        simp [updateMediaField, hm, mediaLookup_cons, hk, h]
      · simp [updateMediaField, hm, mediaLookup_cons, hk, ih]

theorem mediaKeys_nil : mediaKeys [] = [] := rfl

theorem mediaKeys_cons (m : Media) (l : List Media) :
    mediaKeys (m :: l) = m.key :: mediaKeys l := rfl

theorem mem_mediaKeys_updateMediaField (l : List Media) (k v k' : String) :
    k' ∈ mediaKeys (updateMediaField l k v) ↔ k' = k ∨ k' ∈ mediaKeys l := by
  induction l with
  | nil => simp [updateMediaField, mediaKeys]
  | cons m rest ih =>
    by_cases hm : m.key = k
    · subst hm
      simp [updateMediaField, mediaKeys_cons]
    · simp only [updateMediaField, if_neg hm, mediaKeys_cons, List.mem_cons, ih]
      tauto

theorem mediaLookup_eq_none_of_notMem (l : List Media) (k : String)
    (h : k ∉ mediaKeys l) : mediaLookup l k = none := by
  induction l with
  | nil => rfl
  | cons m rest ih =>
    rw [mediaKeys_cons] at h
    simp only [List.mem_cons, not_or] at h
    have h1 : ¬ m.key = k := fun hh => h.1 hh.symm
    simp [mediaLookup_cons, h1, ih h.2]

theorem mem_mediaKeys_of_lookup (l : List Media) (k v : String)
    (h : mediaLookup l k = some v) : k ∈ mediaKeys l := by
  by_contra hk
  rw [mediaLookup_eq_none_of_notMem l k hk] at h
  exact Option.noConfusion h

theorem nodup_mediaKeys_updateMediaField (l : List Media) (k v : String)
    (h : (mediaKeys l).Nodup) : (mediaKeys (updateMediaField l k v)).Nodup := by
  induction l with
  | nil => simp [updateMediaField, mediaKeys]
  | cons m rest ih =>
    rw [mediaKeys_cons, List.nodup_cons] at h
    by_cases hm : m.key = k
    · simp only [updateMediaField, if_pos hm, mediaKeys_cons, List.nodup_cons]
      exact h
    · simp only [updateMediaField, if_neg hm, mediaKeys_cons, List.nodup_cons]
      constructor
      · intro hmem
        rcases (mem_mediaKeys_updateMediaField rest k v m.key).1 hmem with h1 | h1
        · exact hm h1
        · exact h.1 h1
      · exact ih h.2

theorem updateMediaField_of_notMem (l : List Media) (k v : String)
    (h : k ∉ mediaKeys l) :
    updateMediaField l k v = l ++ [{ key := k, value := v }] := by
  induction l with
  | nil => rfl
  | cons m rest ih =>
    rw [mediaKeys_cons] at h
    simp only [List.mem_cons, not_or] at h
    have h1 : ¬ m.key = k := fun hh => h.1 hh.symm
    simp [updateMediaField, h1, ih h.2]

theorem updateMediaField_of_lookup (l : List Media) (k v : String)
    (h : mediaLookup l k = some v) : updateMediaField l k v = l := by
  induction l with
  | nil => simp [mediaLookup] at h
  | cons m rest ih =>
    by_cases hm : m.key = k
    · rw [mediaLookup_cons, if_pos hm] at h
      have hv : m.value = v := by injection h
      subst hv
      simp only [updateMediaField, if_pos hm]
    · rw [mediaLookup_cons, if_neg hm] at h
      simp [updateMediaField, hm, ih h]

theorem mediaLookup_mediaFold_notMem (l : List Media) (acc : List Media) (k : String)
    (h : k ∉ mediaKeys l) : mediaLookup (mediaFold acc l) k = mediaLookup acc k := by
  induction l generalizing acc with
  | nil => rfl
  | cons x rest ih =>
    rw [mediaKeys_cons] at h
    simp only [List.mem_cons, not_or] at h
    rw [mediaFold_cons, ih _ h.2, mediaLookup_updateMediaField, if_neg h.1]

theorem mediaLookup_mediaFold_mem (l : List Media) (acc : List Media) (k : String)
    (hnd : (mediaKeys l).Nodup) (h : k ∈ mediaKeys l) :
    mediaLookup (mediaFold acc l) k = mediaLookup l k := by
  induction l generalizing acc with
  | nil => cases h
  | cons x rest ih =>
    rw [mediaKeys_cons, List.nodup_cons] at hnd
    rw [mediaKeys_cons] at h
    by_cases hk : k = x.key
    · subst hk
      rw [mediaFold_cons, mediaLookup_mediaFold_notMem _ _ _ hnd.1,
        mediaLookup_updateMediaField, if_pos rfl, mediaLookup_cons, if_pos rfl]
    · have hmem : k ∈ mediaKeys rest := by
        rcases List.mem_cons.1 h with h1 | h1
        · exact absurd h1 hk
        · exact h1
      rw [mediaFold_cons, ih _ hnd.2 hmem, mediaLookup_cons,
        if_neg (fun hh => hk hh.symm)]

theorem mem_mediaKeys_mediaFold (l acc : List Media) (k : String) :
    k ∈ mediaKeys (mediaFold acc l) ↔ k ∈ mediaKeys acc ∨ k ∈ mediaKeys l := by
  induction l generalizing acc with
  | nil => simp [mediaFold_nil, mediaKeys_nil]
  | cons x rest ih =>
    rw [mediaFold_cons, ih, mem_mediaKeys_updateMediaField, mediaKeys_cons]
    simp only [List.mem_cons]
    tauto

theorem nodup_mediaKeys_mediaFold (l acc : List Media)
    (h : (mediaKeys acc).Nodup) : (mediaKeys (mediaFold acc l)).Nodup := by
  induction l generalizing acc with
  | nil => exact h
  | cons x rest ih =>
    rw [mediaFold_cons]
    exact ih _ (nodup_mediaKeys_updateMediaField _ _ _ h)

theorem mediaKeys_append (a b : List Media) :
    mediaKeys (a ++ b) = mediaKeys a ++ mediaKeys b := by
  simp [mediaKeys]

theorem mediaFold_fresh (l acc : List Media)
    (hfresh : ∀ k ∈ mediaKeys l, k ∉ mediaKeys acc)
    (hnd : (mediaKeys l).Nodup) : mediaFold acc l = acc ++ l := by
  induction l generalizing acc with
  | nil => simp [mediaFold_nil]
  | cons x rest ih =>
    rw [mediaKeys_cons, List.nodup_cons] at hnd
    have hx : x.key ∉ mediaKeys acc :=
      hfresh x.key (by rw [mediaKeys_cons]; exact List.mem_cons_self _ _)
    have hstep : updateMediaField acc x.key x.value = acc ++ [x] :=
      updateMediaField_of_notMem _ _ _ hx
    have hfresh2 : ∀ k ∈ mediaKeys rest, k ∉ mediaKeys (acc ++ [x]) := by
      intro k hk hmem
      rw [mediaKeys_append] at hmem
      rcases List.mem_append.1 hmem with h1 | h1
      · exact hfresh k (by rw [mediaKeys_cons]; exact List.mem_cons_of_mem _ hk) h1
      · rw [mediaKeys_cons, mediaKeys_nil, List.mem_singleton] at h1
        exact hnd.1 (h1 ▸ hk)
    rw [mediaFold_cons, hstep, ih _ hfresh2 hnd.2, List.append_assoc]
    rfl

theorem mediaFold_nil_acc (l : List Media) (hnd : (mediaKeys l).Nodup) :
    mediaFold [] l = l := by
  rw [mediaFold_fresh l [] (fun k _ => by simp [mediaKeys_nil]) hnd]
  simp

theorem mediaFold_absorb (l acc : List Media)
    (h : ∀ x ∈ l, mediaLookup acc x.key = some x.value) : mediaFold acc l = acc := by
  induction l generalizing acc with
  | nil => rfl
  | cons x rest ih =>
    rw [mediaFold_cons, updateMediaField_of_lookup _ _ _ (h x (List.mem_cons_self _ _))]
    exact ih _ (fun y hy => h y (List.mem_cons_of_mem _ hy))

theorem mediaLookup_self (l : List Media) (hnd : (mediaKeys l).Nodup) :
    ∀ x ∈ l, mediaLookup l x.key = some x.value := by
  induction l with
  | nil => intro x hx; cases hx
  | cons y rest ih =>
    rw [mediaKeys_cons, List.nodup_cons] at hnd
    intro x hx
    rcases List.mem_cons.1 hx with h1 | h1
    · subst h1
      rw [mediaLookup_cons, if_pos rfl]
    · have hne : ¬ y.key = x.key := by
        intro hh
        exact hnd.1 (hh ▸ (List.mem_map_of_mem Media.key h1))
      rw [mediaLookup_cons, if_neg hne]
      exact ih hnd.2 x h1

theorem updateMediaField_ne_nil (l : List Media) (k v : String) :
    updateMediaField l k v ≠ [] := by
  cases l with
  | nil => simp [updateMediaField]
  | cons m rest =>
    by_cases hm : m.key = k <;> simp [updateMediaField, hm]

theorem mediaFold_ne_nil (l acc : List Media) (h : acc ≠ []) :
    mediaFold acc l ≠ [] := by
  induction l generalizing acc with
  | nil => exact h
  | cons x rest ih =>
    rw [mediaFold_cons]
    exact ih _ (updateMediaField_ne_nil _ _ _)

theorem mediaFold_nil_ne_nil (l : List Media) (h : l ≠ []) : mediaFold [] l ≠ [] := by
  cases l with
  | nil => exact absurd rfl h
  | cons x rest =>
    rw [mediaFold_cons]
    exact mediaFold_ne_nil rest _ (updateMediaField_ne_nil _ _ _)

theorem mergeMediaByKey_nil_right (l : List Media) : mergeMediaByKey l [] = l := rfl

theorem mergeMediaByKey_nil_left (u : List Media) (hu : u ≠ []) :
    mergeMediaByKey [] u = u := by
  cases u with
  | nil => exact absurd rfl hu
  | cons x rest => rfl

/-- Claim C4 counterexample: with an empty existing list and an update list
that itself repeats a key, mergeMediaByKey returns the update list unchanged,
so the result has two entries sharing a key, contradicting the no-duplicate
guarantee of the claim as stated for every pair of lists. -/
theorem mergeMediaByKey_duplicate_counterexample :
    mergeMediaByKey []
        [{ key := "k", value := "a" }, { key := "k", value := "b" }] =
      [{ key := "k", value := "a" }, { key := "k", value := "b" }] ∧
    ¬ (mediaKeys (mergeMediaByKey []
        [{ key := "k", value := "a" }, { key := "k", value := "b" }])).Nodup := by
  constructor
  · rfl
  · decide

/-- Claim C4 (amended): for existing and update lists that each carry no
duplicate keys, mergeMediaByKey returns a list whose key set is the union of
the two key sets, where update keys take the update value, all other keys
keep their existing value, no two entries share a key, and the two
empty-list edge cases return the other list unchanged. -/
theorem mergeMediaByKey_contract (l u : List Media)
    (hl : (mediaKeys l).Nodup) (hu : (mediaKeys u).Nodup) :
    (∀ k, k ∈ mediaKeys (mergeMediaByKey l u) ↔ k ∈ mediaKeys l ∨ k ∈ mediaKeys u) ∧
    (∀ k, k ∈ mediaKeys u →
      mediaLookup (mergeMediaByKey l u) k = mediaLookup u k) ∧
    (∀ k, k ∉ mediaKeys u →
      mediaLookup (mergeMediaByKey l u) k = mediaLookup l k) ∧
    (mediaKeys (mergeMediaByKey l u)).Nodup ∧
    (u = [] → mergeMediaByKey l u = l) ∧
    (l = [] → mergeMediaByKey l u = u) := by
  by_cases hue : u = []
  · subst hue
    rw [mergeMediaByKey_nil_right]
    refine ⟨?_, ?_, ?_, hl, fun _ => rfl, ?_⟩
    · intro k
      simp [mediaKeys_nil]
    · intro k hk
      cases hk
    · intro k _
      rfl
    · intro hle
      exact hle
  · by_cases hle : l = []
    · subst hle
      rw [mergeMediaByKey_nil_left u hue]
      refine ⟨?_, ?_, ?_, hu, fun h => absurd h hue, fun _ => rfl⟩
      · intro k
        simp [mediaKeys_nil]
      · intro k _
        rfl
      · intro k hk
        rw [mediaLookup_eq_none_of_notMem u k hk]
        rfl
    · rw [mergeMediaByKey_eq_fold l u hle hue]
      have hm1 : (mediaKeys (mediaFold [] l)).Nodup :=
        nodup_mediaKeys_mediaFold l [] (by rw [mediaKeys_nil]; exact List.nodup_nil)
      have hfoldl : mediaFold [] l = l := mediaFold_nil_acc l hl
      refine ⟨fun k => ?_, fun k hk => mediaLookup_mediaFold_mem u _ k hu hk,
        fun k hk => ?_, nodup_mediaKeys_mediaFold u _ hm1,
        fun h => absurd h hue, fun h => absurd h hle⟩
      · rw [mem_mediaKeys_mediaFold, hfoldl]
      · rw [mediaLookup_mediaFold_notMem u _ k hk, hfoldl]

/-- Claim C4 witness at a concrete input. -/
theorem mergeMediaByKey_contract_witness :
    (mediaKeys (mergeMediaByKey
      [{ key := "original", value := "a" }]
      [{ key := "compressed", value := "b" }])).Nodup ∧
    mediaLookup (mergeMediaByKey
      [{ key := "original", value := "a" }]
      [{ key := "compressed", value := "b" }]) "compressed" =
      mediaLookup [{ key := "compressed", value := "b" }] "compressed" := by
  have h := mergeMediaByKey_contract
    [{ key := "original", value := "a" }]
    [{ key := "compressed", value := "b" }] (by decide) (by decide)
  exact ⟨h.2.2.2.1, h.2.1 "compressed" (by decide)⟩

/-- Claim C5: applying the same media update twice converges.  The first
conjunct is updateMediaField idempotence for every list; the second is
mergeMediaByKey idempotence for an update list without duplicate keys; the
third is the concrete merge example of the claim. -/
theorem mediaUpdate_idempotent (l u : List Media) (k v : String)
    (hu : (mediaKeys u).Nodup) :
    updateMediaField (updateMediaField l k v) k v = updateMediaField l k v ∧
    mergeMediaByKey (mergeMediaByKey l u) u = mergeMediaByKey l u ∧
    mergeMediaByKey
        [{ key := "original", value := "a" }]
        [{ key := "compressed", value := "b" }] =
      [{ key := "original", value := "a" }, { key := "compressed", value := "b" }] := by
  refine ⟨?_, ?_, by decide⟩
  · apply updateMediaField_of_lookup
    rw [mediaLookup_updateMediaField, if_pos rfl]
  · by_cases hue : u = []
    · subst hue
      rw [mergeMediaByKey_nil_right, mergeMediaByKey_nil_right]
    · by_cases hle : l = []
      · subst hle
        rw [mergeMediaByKey_nil_left u hue, mergeMediaByKey_eq_fold u u hue hue,
          mediaFold_nil_acc u hu]
        exact mediaFold_absorb u u (mediaLookup_self u hu)
      · rw [mergeMediaByKey_eq_fold l u hle hue]
        have hm1ne : mediaFold [] l ≠ [] := mediaFold_nil_ne_nil l hle
        have hmne : mediaFold (mediaFold [] l) u ≠ [] := mediaFold_ne_nil u _ hm1ne
        have hmnd : (mediaKeys (mediaFold (mediaFold [] l) u)).Nodup :=
          nodup_mediaKeys_mediaFold u _
            (nodup_mediaKeys_mediaFold l [] (by rw [mediaKeys_nil]; exact List.nodup_nil))
        rw [mergeMediaByKey_eq_fold _ u hmne hue, mediaFold_nil_acc _ hmnd]
        apply mediaFold_absorb
        intro x hx
        rw [mediaLookup_mediaFold_mem u _ x.key hu (List.mem_map_of_mem Media.key hx)]
        exact mediaLookup_self u hu x hx

/-- Claim C5 witness at a concrete input. -/
theorem mediaUpdate_idempotent_witness :
    updateMediaField (updateMediaField
      [{ key := "original", value := "a" }] "compressed" "b") "compressed" "b" =
      updateMediaField [{ key := "original", value := "a" }] "compressed" "b" ∧
    mergeMediaByKey (mergeMediaByKey
        [{ key := "original", value := "a" }]
        [{ key := "compressed", value := "b" }])
        [{ key := "compressed", value := "b" }] =
      mergeMediaByKey
        [{ key := "original", value := "a" }]
        [{ key := "compressed", value := "b" }] := by
  have h := mediaUpdate_idempotent
    [{ key := "original", value := "a" }]
    [{ key := "compressed", value := "b" }] "compressed" "b" (by decide)
  exact ⟨h.1, h.2.1⟩

/-- Number of image entries whose key starts with original and whose URL is
non-empty (the quantity named by claim C2). -/
def originalImageCount (content : MRContent) : Nat :=
  content.images.countP (fun img => strStartsWith img.key "original" && img.value != "")

/-- Number of video entries whose key starts with original and whose URL is
non-empty. -/
def originalVideoCount (content : MRContent) : Nat :=
  content.videos.countP (fun video => strStartsWith video.key "original" && video.value != "")

/-- Number of video entries whose key is mask or original_alpha. -/
def maskVideoEntryCount (content : MRContent) : Nat :=
  content.videos.countP (fun video => video.key == "mask" || video.key == "original_alpha")

/-- A record with one original video and no mask (claim C2 example). -/
def videoOnlyContent : MRContent :=
  { id := "v1", organizationId := "org", images := [],
    videos := [{ key := "original", value := "u" }], objects3D := [],
    hasAlpha := false, orientation := "", status := "draft" }

/-- A record with one original video and one mask (claim C2 example). -/
def videoMaskContent : MRContent :=
  { videoOnlyContent with
    videos := [{ key := "original", value := "u" }, { key := "mask", value := "m" }] }

/-- Claim C2: CountMediaTasks equals the number of qualifying original images,
plus, when at least one qualifying original video exists, twice the number of
original videos plus one for a mask or original_alpha entry; 3D objects
contribute nothing; the count is zero without qualifying original media; one
original video yields 2 and one original video plus a mask yields 3. -/
theorem CountMediaTasks_spec (content : MRContent) (objs : List Media) :
    (CountMediaTasks content =
      (originalImageCount content : Int) +
        (if 0 < originalVideoCount content then
          2 * (originalVideoCount content : Int) +
            (if 0 < maskVideoEntryCount content then 1 else 0)
        else 0)) ∧
    CountMediaTasks { content with objects3D := objs } = CountMediaTasks content ∧
    (originalImageCount content = 0 → originalVideoCount content = 0 →
      CountMediaTasks content = 0) ∧
    CountMediaTasks videoOnlyContent = 2 ∧
    CountMediaTasks videoMaskContent = 3 := by
  refine ⟨?_, rfl, ?_, by decide, by decide⟩
  · by_cases ha : 0 < originalImageCount content <;>
      by_cases hb : 0 < originalVideoCount content <;>
        by_cases hc : 0 < maskVideoEntryCount content <;>
          simp only [CountMediaTasks, originalImageCount, originalVideoCount,
            maskVideoEntryCount, Int.natCast_pos, gt_iff_lt, ha, hb, hc, if_true,
            if_false, if_pos, if_neg, not_false_iff] at * <;>
          omega
  · intro h1 h2
    simp only [CountMediaTasks, originalImageCount, originalVideoCount] at *
    rw [h1, h2]
    simp

/-! State-level lemmas about the tracker operations. -/

/-- Status of the record stored under a content id. -/
def dbStatus (s : SysState) (k : String) : Option String :=
  (s.db k).map MRContent.status

theorem TrackProcessingStart_tracker (s : SysState) (contentID : String) (n : Int)
    (k : String) :
    (TrackProcessingStart s contentID n).tracker k =
      if n ≤ 0 then s.tracker k
      else if k = contentID then some n else s.tracker k := by
  unfold TrackProcessingStart
  by_cases hn : n ≤ 0
  · simp [hn]
  · rw [if_neg hn]
    cases hdb : s.db contentID with
    | none => simp [hdb, hn]
    | some c =>
      by_cases hc : c.status = "draft" <;> simp [hdb, hc, hn]

theorem TrackProcessingStart_db (s : SysState) (contentID : String) (n : Int)
    (k : String) (hn : ¬ n ≤ 0) :
    (TrackProcessingStart s contentID n).db k =
      match s.db contentID with
      | none => s.db k
      | some c =>
        if c.status = "draft" then setStatusIf s.db contentID "draft" "processing" k
        else s.db k := by
  unfold TrackProcessingStart
  rw [if_neg hn]
  cases hdb : s.db contentID with
  | none => simp [hdb]
  | some c =>
    by_cases hc : c.status = "draft" <;> simp [hdb, hc]

theorem TrackProcessingComplete_tracker (s : SysState) (contentID : String) (k : String) :
    (TrackProcessingComplete s contentID).tracker k =
      match s.tracker contentID with
      | none => s.tracker k
      | some c =>
        if c - 1 ≤ 0 then (if k = contentID then none else s.tracker k)
        else (if k = contentID then some (c - 1) else s.tracker k) := by
  unfold TrackProcessingComplete
  cases htr : s.tracker contentID with
  | none => rfl
  | some c =>
    by_cases hrem : c - 1 ≤ 0
    · cases hdb : s.db contentID with
      | none => simp [hdb, hrem]
      | some content =>
        by_cases hc : content.status = "processing" <;> simp [hdb, hc, hrem]
    · simp [hrem]

theorem TrackProcessingComplete_db (s : SysState) (contentID : String) (k : String) :
    (TrackProcessingComplete s contentID).db k =
      match s.tracker contentID with
      | none => s.db k
      | some c =>
        if c - 1 ≤ 0 then
          match s.db contentID with
          | none => s.db k
          | some content =>
            if content.status = "processing" then
              setStatusIf s.db contentID "processing" "processed" k
            else s.db k
        else s.db k := by
  unfold TrackProcessingComplete
  cases htr : s.tracker contentID with
  | none => rfl
  | some c =>
    by_cases hrem : c - 1 ≤ 0
    · cases hdb : s.db contentID with
      | none => simp [hdb, hrem]
      | some content =>
        by_cases hc : content.status = "processing" <;> simp [hdb, hc, hrem]
    · simp [hrem]

/-- Claim C6: TrackProcessingComplete for a content id with no tracker entry
returns the state completely unchanged, so calls beyond the registered count
are no-ops once the entry has been removed. -/
theorem TrackProcessingComplete_no_entry (s : SysState) (contentID : String)
    (h : s.tracker contentID = none) : TrackProcessingComplete s contentID = s := by
  unfold TrackProcessingComplete
  rw [h]

/-- A concrete state with one draft record and no tracker entries. -/
def draftState : SysState :=
  { tracker := fun _ => none,
    db := fun k =>
      if k = "a" then
        some { id := "a", organizationId := "org", images := [], videos := [],
               objects3D := [], hasAlpha := false, orientation := "", status := "draft" }
      else none }

/-- Claim C6 witness at a concrete input. -/
theorem TrackProcessingComplete_no_entry_witness :
    TrackProcessingComplete draftState "a" = draftState :=
  TrackProcessingComplete_no_entry draftState "a" rfl

/-- Claim C8: TrackProcessingStart with a non-positive count is a no-op;
with a positive count it stores exactly that count for the id, touching no
other entry; a second start for the same id overwrites the first count. -/
theorem TrackProcessingStart_count (s : SysState) (contentID other : String)
    (n n1 n2 : Int) :
    (n ≤ 0 → TrackProcessingStart s contentID n = s) ∧
    (0 < n → (TrackProcessingStart s contentID n).tracker contentID = some n) ∧
    (other ≠ contentID →
      (TrackProcessingStart s contentID n).tracker other = s.tracker other) ∧
    (0 < n2 →
      (TrackProcessingStart (TrackProcessingStart s contentID n1) contentID n2).tracker
        contentID = some n2) := by
  refine ⟨?_, ?_, ?_, ?_⟩
  · intro hn
    unfold TrackProcessingStart
    rw [if_pos hn]
  · intro hn
    rw [TrackProcessingStart_tracker, if_neg (by omega), if_pos rfl]
  · intro hother
    rw [TrackProcessingStart_tracker]
    by_cases hn : n ≤ 0
    · rw [if_pos hn]
    · rw [if_neg hn, if_neg hother]
  · intro hn2
    rw [TrackProcessingStart_tracker, if_neg (by omega), if_pos rfl]

/-- Claim C8 witness at a concrete input. -/
theorem TrackProcessingStart_count_witness :
    TrackProcessingStart draftState "a" 0 = draftState ∧
    (TrackProcessingStart draftState "a" 5).tracker "a" = some 5 ∧
    (TrackProcessingStart draftState "a" 5).tracker "b" = draftState.tracker "b" ∧
    (TrackProcessingStart (TrackProcessingStart draftState "a" 5) "a" 2).tracker "a" =
      some 2 := by
  have h := TrackProcessingStart_count draftState "a" "b" 5 5 2
  have h0 := TrackProcessingStart_count draftState "a" "b" 0 5 2
  exact ⟨h0.1 (by omega), h.2.1 (by omega), h.2.2.1 (by decide), h.2.2.2 (by omega)⟩

theorem iterateComplete_succ (contentID : String) (j : Nat) (s : SysState) :
    iterateComplete contentID (j + 1) s =
      TrackProcessingComplete (iterateComplete contentID j s) contentID := by
  induction j generalizing s with
  | zero => rfl
  | succ j ih =>
    show iterateComplete contentID (j + 1) (TrackProcessingComplete s contentID) = _
    rw [ih]
    rfl

theorem iterateComplete_inv (j : Nat) : ∀ (s : SysState) (contentID : String) (m : Nat),
    s.tracker contentID = some (m : Int) → j < m →
    (iterateComplete contentID j s).tracker contentID = some ((m : Int) - j) ∧
    (iterateComplete contentID j s).db = s.db := by
  induction j with
  | zero =>
    intro s contentID m h _
    exact ⟨by simpa using h, rfl⟩
  | succ j ih =>
    intro s contentID m h hm
    have hrem : ¬ ((m : Int) - 1 ≤ 0) := by omega
    have hstep : TrackProcessingComplete s contentID =
        { s with tracker :=
            fun k => if k = contentID then some ((m : Int) - 1) else s.tracker k } := by
      unfold TrackProcessingComplete
      rw [h]
      simp [hrem]
    have hm1 : ((m : Int) - 1) = ((m - 1 : Nat) : Int) := by omega
    have htr1 : (TrackProcessingComplete s contentID).tracker contentID =
        some ((m - 1 : Nat) : Int) := by
      rw [hstep]
      simp [hm1]
    obtain ⟨h1, h2⟩ := ih (TrackProcessingComplete s contentID) contentID (m - 1) htr1
      (by omega)
    rw [iterateComplete]
    refine ⟨?_, ?_⟩
    · rw [h1]
      have : ((m - 1 : Nat) : Int) - j = (m : Int) - (j + 1 : Nat) := by
        push_cast
        omega
      rw [this]
    · rw [h2, hstep]

/-- Claim C1: starting tracking with count n on a draft record flips the
status to processing; after fewer than n completions the tracker entry holds
n minus the number of calls and the status stays processing; after exactly n
completions the entry is gone and the status is processed. -/
theorem trackProcessing_lifecycle (s : SysState) (contentID : String) (n : Nat)
    (rec : MRContent) (hrec : s.db contentID = some rec)
    (hdraft : rec.status = "draft") (hn : 0 < n) :
    dbStatus (TrackProcessingStart s contentID (n : Int)) contentID = some "processing" ∧
    (∀ j : Nat, j < n →
      (iterateComplete contentID j
        (TrackProcessingStart s contentID (n : Int))).tracker contentID =
          some ((n : Int) - j) ∧
      dbStatus (iterateComplete contentID j
        (TrackProcessingStart s contentID (n : Int))) contentID = some "processing") ∧
    (iterateComplete contentID n
      (TrackProcessingStart s contentID (n : Int))).tracker contentID = none ∧
    dbStatus (iterateComplete contentID n
      (TrackProcessingStart s contentID (n : Int))) contentID = some "processed" := by
  have hnz : ¬ ((n : Int) ≤ 0) := by omega
  set s0 := TrackProcessingStart s contentID (n : Int) with hs0
  have hs0db : s0.db contentID = some { rec with status := "processing" } := by
    rw [hs0, TrackProcessingStart_db s contentID (n : Int) contentID hnz, hrec]
    simp [hdraft, setStatusIf, hrec]
  have hs0tr : s0.tracker contentID = some ((n : Int)) := by
    rw [hs0, TrackProcessingStart_tracker, if_neg hnz, if_pos rfl]
  have hstatus0 : dbStatus s0 contentID = some "processing" := by
    rw [dbStatus, hs0db]
    rfl
  refine ⟨hstatus0, ?_, ?_, ?_⟩
  · intro j hj
    obtain ⟨h1, h2⟩ := iterateComplete_inv j s0 contentID n hs0tr hj
    refine ⟨h1, ?_⟩
    rw [dbStatus, h2, ← dbStatus]
    exact hstatus0
  · obtain ⟨j, hj⟩ : ∃ j, n = j + 1 := ⟨n - 1, by omega⟩
    subst hj
    obtain ⟨h1, h2⟩ := iterateComplete_inv j s0 contentID (j + 1) hs0tr (by omega)
    rw [iterateComplete_succ, TrackProcessingComplete_tracker, h1]
    have : ((j + 1 : Nat) : Int) - j = 1 := by push_cast; omega
    rw [this]
    simp
  · obtain ⟨j, hj⟩ : ∃ j, n = j + 1 := ⟨n - 1, by omega⟩
    subst hj
    obtain ⟨h1, h2⟩ := iterateComplete_inv j s0 contentID (j + 1) hs0tr (by omega)
    have : ((j + 1 : Nat) : Int) - j = 1 := by push_cast; omega
    rw [this] at h1
    rw [iterateComplete_succ, dbStatus, TrackProcessingComplete_db, h1, h2]
    simp [hs0db, setStatusIf]

/-- Claim C1 witness at a concrete input: a draft record and two tasks. -/
theorem trackProcessing_lifecycle_witness :
    dbStatus (TrackProcessingStart draftState "a" (2 : Nat)) "a" = some "processing" ∧
    (iterateComplete "a" 1 (TrackProcessingStart draftState "a" (2 : Nat))).tracker "a" =
      some ((2 : Nat) - (1 : Nat) : Int) ∧
    dbStatus (iterateComplete "a" 1 (TrackProcessingStart draftState "a" (2 : Nat))) "a" =
      some "processing" ∧
    (iterateComplete "a" 2 (TrackProcessingStart draftState "a" (2 : Nat))).tracker "a" =
      none ∧
    dbStatus (iterateComplete "a" 2 (TrackProcessingStart draftState "a" (2 : Nat))) "a" =
      some "processed" := by
  have h := trackProcessing_lifecycle draftState "a" 2
    { id := "a", organizationId := "org", images := [], videos := [],
      objects3D := [], hasAlpha := false, orientation := "", status := "draft" }
    (by decide) rfl (by omega)
  obtain ⟨hj1, hj2⟩ := h.2.1 1 (by omega)
  exact ⟨h.1, by exact_mod_cast hj1, hj2, h.2.2.1, h.2.2.2⟩

/-- Claim C7: the tracker only ever performs the transitions draft to
processing (at start) and processing to processed (at completion), each on
the targeted id only; a record whose current status is anything else is left
untouched by both operations. -/
theorem tracker_status_transitions (s : SysState) (contentID rid : String) (n : Int) :
    (dbStatus (TrackProcessingStart s contentID n) rid = dbStatus s rid ∨
      (rid = contentID ∧ dbStatus s rid = some "draft" ∧
        dbStatus (TrackProcessingStart s contentID n) rid = some "processing")) ∧
    (dbStatus (TrackProcessingComplete s contentID) rid = dbStatus s rid ∨
      (rid = contentID ∧ dbStatus s rid = some "processing" ∧
        dbStatus (TrackProcessingComplete s contentID) rid = some "processed")) ∧
    (dbStatus s rid ≠ some "draft" →
      dbStatus (TrackProcessingStart s contentID n) rid = dbStatus s rid) ∧
    (dbStatus s rid ≠ some "processing" →
      dbStatus (TrackProcessingComplete s contentID) rid = dbStatus s rid) := by
  have hA : dbStatus (TrackProcessingStart s contentID n) rid = dbStatus s rid ∨
      (rid = contentID ∧ dbStatus s rid = some "draft" ∧
        dbStatus (TrackProcessingStart s contentID n) rid = some "processing") := by
    by_cases hn : n ≤ 0
    · left
      have heq : TrackProcessingStart s contentID n = s := by
        unfold TrackProcessingStart
        rw [if_pos hn]
      rw [heq]
    · unfold dbStatus
      rw [TrackProcessingStart_db s contentID n rid hn]
      cases hdb : s.db contentID with
      | none => left; rfl
      | some c =>
        dsimp only
        by_cases hc : c.status = "draft"
        · rw [if_pos hc]
          by_cases hk : rid = contentID
          · subst hk
            right
            refine ⟨rfl, ?_, ?_⟩
            · rw [hdb]
              simp [hc]
            · simp [setStatusIf, hdb, hc]
          · left
            simp [setStatusIf, hk]
        · rw [if_neg hc]
          left
          rfl
  have hB : dbStatus (TrackProcessingComplete s contentID) rid = dbStatus s rid ∨
      (rid = contentID ∧ dbStatus s rid = some "processing" ∧
        dbStatus (TrackProcessingComplete s contentID) rid = some "processed") := by
    cases htr : s.tracker contentID with
    | none =>
      left
      rw [TrackProcessingComplete_no_entry s contentID htr]
    | some c =>
      unfold dbStatus
      rw [TrackProcessingComplete_db, htr]
      by_cases hrem : c - 1 ≤ 0
      · dsimp only
        rw [if_pos hrem]
        cases hdb : s.db contentID with
        | none => left; rfl
        | some content =>
          dsimp only
          by_cases hc : content.status = "processing"
          · rw [if_pos hc]
            by_cases hk : rid = contentID
            · subst hk
              right
              refine ⟨rfl, ?_, ?_⟩
              · rw [hdb]
                simp [hc]
              · simp [setStatusIf, hdb, hc]
            · left
              simp [setStatusIf, hk]
          · rw [if_neg hc]
            left
            rfl
      · dsimp only
        rw [if_neg hrem]
        left
        rfl
  refine ⟨hA, hB, ?_, ?_⟩
  · intro hne
    rcases hA with h | h
    · exact h
    · exact absurd h.2.1 hne
  · intro hne
    rcases hB with h | h
    · exact h
    · exact absurd h.2.1 hne

/-- Claim C7 witness at concrete inputs: a missing record is not transitioned
by start, and a draft record is not transitioned by completion. -/
theorem tracker_status_transitions_witness :
    dbStatus (TrackProcessingStart draftState "b" 3) "b" = dbStatus draftState "b" ∧
    dbStatus (TrackProcessingComplete draftState "a") "a" = dbStatus draftState "a" := by
  have h1 := tracker_status_transitions draftState "b" "b" 3
  have h2 := tracker_status_transitions draftState "a" "a" 3
  exact ⟨h1.2.2.1 (by decide), h2.2.2.2 (by decide)⟩

/-- TrackProcessingComplete touches at most the status field of a stored
record: for every key the stored record is unchanged or only its status was
set to processed. -/
theorem TrackProcessingComplete_db_fields (s : SysState) (contentID k : String) :
    (TrackProcessingComplete s contentID).db k = s.db k ∨
    (∃ rec, s.db k = some rec ∧
      (TrackProcessingComplete s contentID).db k = some { rec with status := "processed" }) := by
  rw [TrackProcessingComplete_db]
  cases htr : s.tracker contentID with
  | none => left; rfl
  | some c =>
    dsimp only
    by_cases hrem : c - 1 ≤ 0
    · rw [if_pos hrem]
      cases hdb : s.db contentID with
      | none => left; rfl
      | some content =>
        dsimp only
        by_cases hc : content.status = "processing"
        · rw [if_pos hc]
          by_cases hk : k = contentID
          · subst hk
            right
            refine ⟨content, hdb, ?_⟩
            simp [setStatusIf, hdb, hc]
          · left
            simp [setStatusIf, hk]
        · rw [if_neg hc]
          left
          rfl
    · rw [if_neg hrem]
      left
      rfl

/- Claim C3 counterexample setup: a failed result whose produced-URL fields
are all empty is rejected by the validation guard before the success check,
so TrackProcessingComplete is never called and the outstanding-task count
does not advance (it stays at 2 instead of dropping to 1). -/

/-- A state with two outstanding tasks tracked for content id a. -/
def trackedState : SysState :=
  { tracker := fun k => if k = "a" then some 2 else none,
    db := fun _ => none }

/-- A failed processing result carrying no produced URL. -/
def failedEmptyResult : MediaProcessResult :=
  { contentID := "a", originalURL := "", processedURL := "", hlsURL := "",
    dashURL := "", mediaType := "video", processingType := "compressed",
    orientation := "", hasAlpha := false, success := false, error := "boom",
    timestamp := 0 }

/-- Claim C3 counterexample theorem. -/
theorem processMediaResult_failed_empty_counterexample :
    failedEmptyResult.success = false ∧
    (processMediaResult trackedState failedEmptyResult).1 =
      Except.error "missing required fields: content_id or processed URL" ∧
    (processMediaResult trackedState failedEmptyResult).2.tracker "a" = some 2 ∧
    (TrackProcessingComplete trackedState "a").tracker "a" = some 1 := by
  refine ⟨rfl, rfl, by decide, by decide⟩

/-- Claim C3 (amended): a failed result that passes validation (non-empty
content id and at least one produced URL) advances the tracker exactly like
one completion and leaves every media field of every stored record
unchanged; a failed result with all produced-URL fields empty is rejected
before the tracker is advanced. -/
theorem processMediaResult_failed (s : SysState) (r : MediaProcessResult)
    (hfail : r.success = false) (hid : r.contentID ≠ "")
    (hurl : ¬ (r.processedURL = "" ∧ r.hlsURL = "" ∧ r.dashURL = "")) :
    (processMediaResult s r).2 = TrackProcessingComplete s r.contentID ∧
    (∀ k rec, s.db k = some rec →
      ∃ rec2, (processMediaResult s r).2.db k = some rec2 ∧
        rec2.images = rec.images ∧ rec2.videos = rec.videos ∧
        rec2.objects3D = rec.objects3D ∧ rec2.hasAlpha = rec.hasAlpha ∧
        rec2.orientation = rec.orientation) := by
  have hguard : ¬ (r.contentID = "" ∨
      (r.processedURL = "" ∧ r.hlsURL = "" ∧ r.dashURL = "")) := by
    intro h
    rcases h with h | h
    · exact hid h
    · exact hurl h
  have heq : (processMediaResult s r).2 = TrackProcessingComplete s r.contentID := by
    unfold processMediaResult
    rw [if_neg hguard, hfail]
    rfl
  refine ⟨heq, ?_⟩
  intro k rec hrec
  rw [heq]
  rcases TrackProcessingComplete_db_fields s r.contentID k with h | ⟨rec1, hrec1, h⟩
  · exact ⟨rec, by rw [h, hrec], rfl, rfl, rfl, rfl, rfl⟩
  · have : rec1 = rec := by
      rw [hrec] at hrec1
      injection hrec1 with hh
      exact hh.symm
    subst this
    exact ⟨{ rec1 with status := "processed" }, h, rfl, rfl, rfl, rfl, rfl⟩

/-- Claim C3 witness at a concrete input: a failed result with a produced URL. -/
theorem processMediaResult_failed_witness :
    (processMediaResult trackedState
      { failedEmptyResult with processedURL := "u" }).2 =
      TrackProcessingComplete trackedState "a" := by
  have h := processMediaResult_failed trackedState
    { failedEmptyResult with processedURL := "u" }
    rfl (by decide) (by decide)
  exact h.1

/-- The update set never lowers has_alpha: the updated record carries
has_alpha equal to the old value or-ed with the result flag. -/
theorem applyMediaResult_hasAlpha (c : MRContent) (r : MediaProcessResult) :
    (applyMediaResult c r).hasAlpha = (c.hasAlpha || r.hasAlpha) := by
  unfold applyMediaResult
  dsimp only
  generalize hc1 :
    (if r.orientation != "" then { c with orientation := r.orientation } else c) = c1
  have h1 : c1.hasAlpha = c.hasAlpha := by
    rw [← hc1]
    split <;> rfl
  generalize hc2 : (if r.hasAlpha then { c1 with hasAlpha := true } else c1) = c2
  have h2 : c2.hasAlpha = (c.hasAlpha || r.hasAlpha) := by
    rw [← hc2]
    by_cases ha : r.hasAlpha <;> simp [ha, h1]
  rw [← h2]
  split <;>
    first
      | (split_ifs <;> rfl)
      | (split <;> first | (split_ifs <;> rfl) | rfl)
      | rfl

theorem TrackProcessingComplete_preserves_hasAlpha (s : SysState)
    (contentID k : String) (rec : MRContent) (h : s.db k = some rec)
    (hal : rec.hasAlpha = true) :
    ∃ rec2, (TrackProcessingComplete s contentID).db k = some rec2 ∧
      rec2.hasAlpha = true := by
  rcases TrackProcessingComplete_db_fields s contentID k with heq | ⟨rec1, hrec1, heq⟩
  · exact ⟨rec, by rw [heq, h], hal⟩
  · have : rec1 = rec := by
      rw [h] at hrec1
      injection hrec1 with hh
      exact hh.symm
    subst this
    exact ⟨{ rec1 with status := "processed" }, heq, hal⟩

theorem processMediaResult_preserves_hasAlpha (s : SysState) (r : MediaProcessResult)
    (k : String) (rec : MRContent) (h : s.db k = some rec)
    (hal : rec.hasAlpha = true) :
    ∃ rec2, ((processMediaResult s r).2).db k = some rec2 ∧ rec2.hasAlpha = true := by
  unfold processMediaResult
  by_cases hguard : r.contentID = "" ∨
      (r.processedURL = "" ∧ r.hlsURL = "" ∧ r.dashURL = "")
  · rw [if_pos hguard]
    exact ⟨rec, h, hal⟩
  · rw [if_neg hguard]
    by_cases hsucc : r.success
    · simp only [hsucc, Bool.not_true, Bool.false_eq_true, if_false]
      cases hdb : s.db r.contentID with
      | none => exact ⟨rec, h, hal⟩
      | some content =>
        dsimp only
        by_cases hk : k = r.contentID
        · subst hk
          have hcr : content = rec := by
            rw [h] at hdb
            injection hdb with hh
            exact hh.symm
          subst hcr
          apply TrackProcessingComplete_preserves_hasAlpha _ _ _
            (applyMediaResult content r)
          · simp
          · rw [applyMediaResult_hasAlpha, hal]
            simp
        · apply TrackProcessingComplete_preserves_hasAlpha _ _ _ rec _ hal
          simp [hk, h]
    · have hs : (!r.success) = true := by
        rw [Bool.not_eq_true']
        exact Bool.not_eq_true _ ▸ (Bool.eq_false_iff.mpr hsucc)
      rw [if_pos hs]
      exact TrackProcessingComplete_preserves_hasAlpha s r.contentID k rec h hal

theorem ingestResults_preserves_hasAlpha (results : List MediaProcessResult) :
    ∀ (s : SysState) (k : String) (rec : MRContent), s.db k = some rec →
      rec.hasAlpha = true →
      ∃ rec2, (ingestResults s results).db k = some rec2 ∧ rec2.hasAlpha = true := by
  induction results with
  | nil => exact fun s k rec h hal => ⟨rec, h, hal⟩
  | cons r rs ih =>
    intro s k rec h hal
    obtain ⟨rec1, h1, hal1⟩ := processMediaResult_preserves_hasAlpha s r k rec h hal
    exact ih _ k rec1 h1 hal1

/-- Claim C10: processMediaResult can only raise has_alpha, never clear it:
the update carries has_alpha old or-ed with the result flag, and once a
stored record has has_alpha true, no sequence of ingested results clears it. -/
theorem hasAlpha_never_cleared (c : MRContent) (r : MediaProcessResult)
    (s : SysState) (results : List MediaProcessResult) (k : String) (rec : MRContent)
    (h : s.db k = some rec) (hal : rec.hasAlpha = true) :
    (applyMediaResult c r).hasAlpha = (c.hasAlpha || r.hasAlpha) ∧
    ((ingestResults s results).db k).map MRContent.hasAlpha = some true := by
  refine ⟨applyMediaResult_hasAlpha c r, ?_⟩
  obtain ⟨rec2, h2, hal2⟩ := ingestResults_preserves_hasAlpha results s k rec h hal
  rw [h2, Option.map_some']
  rw [hal2]

/-- A state with one processing record carrying has_alpha true. -/
def alphaState : SysState :=
  { tracker := fun k => if k = "a" then some 1 else none,
    db := fun k =>
      if k = "a" then
        some { id := "a", organizationId := "org", images := [], videos := [],
               objects3D := [], hasAlpha := true, orientation := "",
               status := "processing" }
      else none }

/-- A successful compressed-video result that does not carry has_alpha. -/
def plainVideoResult : MediaProcessResult :=
  { contentID := "a", originalURL := "o", processedURL := "u", hlsURL := "",
    dashURL := "", mediaType := "video", processingType := "compressed",
    orientation := "", hasAlpha := false, success := true, error := "",
    timestamp := 0 }

/-- Claim C10 witness at a concrete input. -/
theorem hasAlpha_never_cleared_witness :
    (applyMediaResult
        { id := "a", organizationId := "org", images := [], videos := [],
          objects3D := [], hasAlpha := true, orientation := "",
          status := "processing" } plainVideoResult).hasAlpha =
      (true || plainVideoResult.hasAlpha) ∧
    ((ingestResults alphaState [plainVideoResult]).db "a").map MRContent.hasAlpha =
      some true := by
  have h := hasAlpha_never_cleared
    { id := "a", organizationId := "org", images := [], videos := [],
      objects3D := [], hasAlpha := true, orientation := "",
      status := "processing" } plainVideoResult
    alphaState [plainVideoResult] "a"
    { id := "a", organizationId := "org", images := [], videos := [],
      objects3D := [], hasAlpha := true, orientation := "",
      status := "processing" } (by decide) rfl
  exact h

/-- Claim C9: when the combined createexperience publish fails, the
dispatcher immediately performs exactly three completions for the content id,
whatever the actual video task count was; and the resulting state never
depends on the outcome of any other topic (image publishes have no
compensating completion), captured by invariance under any oracle that agrees
on the createexperience topic. -/
theorem dispatcher_video_publish_compensation
    (pub pub2 : String → TranscodeRequest → Bool) (s : SysState) (content : MRContent)
    (hagree : ∀ req, pub2 "createexperience" req = pub "createexperience" req) :
    (dispatchOriginalVideoURL content ≠ "" →
      pub "createexperience" (dispatchBaseRequest content) = false →
      ¬ CountMediaTasks content ≤ 0 →
      (ProcessMediaForContent true pub s content).1 =
        TrackProcessingComplete (TrackProcessingComplete (TrackProcessingComplete
          (TrackProcessingStart s content.id (CountMediaTasks content))
          content.id) content.id) content.id) ∧
    (ProcessMediaForContent true pub2 s content).1 =
      (ProcessMediaForContent true pub s content).1 := by
  constructor
  · intro hvid hfail hcnt
    unfold ProcessMediaForContent
    rw [if_neg (by simp), if_neg hcnt]
    dsimp only
    rw [if_pos (by simpa [bne_iff_ne] using hvid), if_neg (by rw [hfail]; simp)]
  · have hag := hagree (dispatchBaseRequest content)
    unfold ProcessMediaForContent
    by_cases hcnt : CountMediaTasks content ≤ 0
    · simp [hcnt]
    · by_cases hvid : (dispatchOriginalVideoURL content != "") = true
      · by_cases hpub : pub "createexperience" (dispatchBaseRequest content) = true
        · simp [hcnt, hvid, hpub, hag]
        · have hp2 : pub "createexperience" (dispatchBaseRequest content) = false :=
            Bool.eq_false_iff.mpr hpub
          simp [hcnt, hvid, hag, hp2]
      · simp [hcnt, hvid]

/-- An oracle for which every publish fails. -/
def pubAllFail : String → TranscodeRequest → Bool := fun _ _ => false

/-- An oracle failing only the createexperience topic. -/
def pubOnlyVideoFail : String → TranscodeRequest → Bool :=
  fun topic _ => topic != "createexperience"

/-- Claim C9 witness at a concrete input. -/
theorem dispatcher_video_publish_compensation_witness :
    (ProcessMediaForContent true pubAllFail draftState videoOnlyContent).1 =
      TrackProcessingComplete (TrackProcessingComplete (TrackProcessingComplete
        (TrackProcessingStart draftState videoOnlyContent.id
          (CountMediaTasks videoOnlyContent))
        videoOnlyContent.id) videoOnlyContent.id) videoOnlyContent.id ∧
    (ProcessMediaForContent true pubOnlyVideoFail draftState videoOnlyContent).1 =
      (ProcessMediaForContent true pubAllFail draftState videoOnlyContent).1 := by
  have h := dispatcher_video_publish_compensation pubAllFail pubOnlyVideoFail
    draftState videoOnlyContent (fun _ => rfl)
  exact ⟨h.1 (by decide) rfl (by decide), h.2⟩

/-- A record with no media at all. -/
def emptyContent : MRContent :=
  { id := "e1", organizationId := "org", images := [], videos := [],
    objects3D := [], hasAlpha := false, orientation := "", status := "draft" }

/-- Claim C2 witness at a concrete input. -/
theorem CountMediaTasks_spec_witness :
    CountMediaTasks emptyContent = 0 ∧
    CountMediaTasks { emptyContent with
      objects3D := [{ key := "original", value := "x" }] } =
      CountMediaTasks emptyContent := by
  have h := CountMediaTasks_spec emptyContent [{ key := "original", value := "x" }]
  exact ⟨h.2.2.1 rfl rfl, h.2.1⟩
